import Mathlib

/-!
Verification of the text-to-expense-record extraction pipeline of
`backend/process_document.py` (amount / category / description / date
extraction, record assembly, validation, and the batch handler loop).

Text is modelled as `List Char`.  The Python regular expressions used by the
source are small enough that each one is embedded as a direct scanning
function with the exact leftmost-match / greedy / backtracking semantics of
`re.search` on that concrete pattern.  `decimal.Decimal` values are modelled
as `ℚ` (the captures are plain decimal numerals), `datetime` dates as a
`SimpleDate` record with explicit calendar validity, and the dynamically
typed dict handed to the validator as a record of optional `PyVal`s, with
Python exceptions modelled by `Except Unit`.
-/

namespace SmartExpense

/-! ## Character classes (ASCII fragment of Python `str` semantics) -/

/-- Python's `\s` class / `str.strip` whitespace, restricted to ASCII. -/
def isPySpace (c : Char) : Bool :=
  c = ' ' || c = '\t' || c = '\n' || c = '\r' || c = '\x0b' || c = '\x0c'

/-- Value of a digit character. -/
def digitVal (c : Char) : ℕ := c.toNat - 48

/-- Numeric value of a decimal digit string (chars assumed to be digits). -/
def digitsVal (s : List Char) : ℕ :=
  s.foldl (fun acc c => 10 * acc + digitVal c) 0

/-- Lower-casing of a text, as `str.lower()` acts on ASCII. -/
def lowerL (s : List Char) : List Char := s.map Char.toLower

/-! ## `decimal.Decimal` on the numeral grammar produced by the captures

A `Decimal` is a fixed-point value `mant / 10 ^ scale`.  `Decimal(s)` is
modelled on strings of the shape `digits` or `digits.digits`; anything else
is a parse failure (`none`), standing for the `ValueError` /
`ArithmeticError` that the source catches. -/

def pow10 : ℕ → ℕ
  | 0 => 1
  | n + 1 => 10 * pow10 n

structure PyDecimal where
  mant : ℤ
  scale : ℕ
deriving DecidableEq

/-- Numeric equality of decimals (`Decimal.__eq__`). -/
def PyDecimal.eqv (a b : PyDecimal) : Bool :=
  a.mant * (pow10 b.scale : ℤ) == b.mant * (pow10 a.scale : ℤ)

/-- `a > 0` (the denominator `10 ^ scale` is positive). -/
def PyDecimal.isPos (a : PyDecimal) : Bool := 0 < a.mant

/-- `a <= 0`. -/
def PyDecimal.leZero (a : PyDecimal) : Bool := a.mant ≤ 0

def parseDecimal (s : List Char) : Option PyDecimal :=
  let intPart := s.takeWhile Char.isDigit
  if intPart.isEmpty then none
  else
    match s.drop intPart.length with
    | [] => some ⟨digitsVal intPart, 0⟩
    | '.' :: frac =>
        if !frac.isEmpty && frac.all Char.isDigit then
          some ⟨digitsVal intPart * pow10 frac.length + digitsVal frac, frac.length⟩
        else none
    | _ => none

/-! ## `re.search` scaffolding

`scanFirst f s` tries the position-local matcher `f` on every suffix of `s`
from the left, returning the first success: exactly the leftmost-match rule
of `re.search`. -/

def scanFirst (f : List Char → Option α) : List Char → Option α
  | [] => f []
  | c :: rest =>
    match f (c :: rest) with
    | some r => some r
    | none => scanFirst f rest

/-- Case-insensitive literal prefix test (`kw` given in lower case). -/
def startsWithCI (kw : List Char) (s : List Char) : Bool :=
  (s.take kw.length).map Char.toLower == kw

/-! ## Amount extraction (`extract_expense_info`, lines 94–112)

The four patterns, in source order:
1. `Total[:\s]*\$?([0-9]+(?:\.[0-9]{2})?)`
2. `Amount[:\s]*\$?([0-9]+(?:\.[0-9]{2})?)`
3. `\$([0-9]+\.[0-9]{2})`
4. `(?:^|\s)([0-9]+\.[0-9]{2})(?=\s|$)`
all compiled with `re.IGNORECASE`. -/

/-- The capture `[0-9]+(?:\.[0-9]{2})?` anchored at the current position:
greedy digits, then optionally a dot and two digits. -/
def numCapture (s : List Char) : Option (List Char) :=
  let ds := s.takeWhile Char.isDigit
  if ds.isEmpty then none
  else
    match s.drop ds.length with
    | '.' :: a :: b :: _ =>
        if a.isDigit && b.isDigit then some (ds ++ ['.', a, b]) else some ds
    | _ => some ds

/-- `KW[:\s]*\$?([0-9]+(?:\.[0-9]{2})?)` anchored at the current position
(`[:\s]*` and `\$?` are max-munched; since `:`/whitespace/`$` are disjoint
from digits this is exactly the backtracking semantics). -/
def labeledAt (kw : List Char) (s : List Char) : Option (List Char) :=
  if startsWithCI kw s then
    let r1 := (s.drop kw.length).dropWhile fun c => c = ':' || isPySpace c
    let r2 := match r1 with
      | '$' :: r => r
      | r => r
    numCapture r2
  else none

/-- The capture `[0-9]+\.[0-9]{2}` anchored at the current position (dot and
two fractional digits mandatory). -/
def strictNum (s : List Char) : Option (List Char) :=
  let ds := s.takeWhile Char.isDigit
  if ds.isEmpty then none
  else
    match s.drop ds.length with
    | '.' :: a :: b :: _ =>
        if a.isDigit && b.isDigit then some (ds ++ ['.', a, b]) else none
    | _ => none

def dollarAt : List Char → Option (List Char)
  | '$' :: rest => strictNum rest
  | _ => none

/-- `(?=\s|$)` lookahead after a bare number (`$` also matches before a
final newline, which is whitespace anyway). -/
def lookaheadEnd : List Char → Bool
  | [] => true
  | c :: _ => isPySpace c

/-- `([0-9]+\.[0-9]{2})(?=\s|$)` anchored at the current position. -/
def bareNum (s : List Char) : Option (List Char) :=
  let ds := s.takeWhile Char.isDigit
  if ds.isEmpty then none
  else
    match s.drop ds.length with
    | '.' :: a :: b :: rest =>
        if a.isDigit && b.isDigit && lookaheadEnd rest then some (ds ++ ['.', a, b])
        else none
    | _ => none

def bareAfterSpaceAt : List Char → Option (List Char)
  | c :: rest => if isPySpace c then bareNum rest else none
  | [] => none

def searchTotal (s : List Char) : Option (List Char) :=
  scanFirst (labeledAt (String.toList "total")) s

def searchAmount (s : List Char) : Option (List Char) :=
  scanFirst (labeledAt (String.toList "amount")) s

def searchDollar (s : List Char) : Option (List Char) :=
  scanFirst dollarAt s

/-- `(?:^|\s)(...)`: the `^` alternative at position 0 is tried before the
whitespace-prefixed alternatives further right. -/
def searchBare (s : List Char) : Option (List Char) :=
  match bareNum s with
  | some r => some r
  | none => scanFirst bareAfterSpaceAt s

def amount_patterns : List (List Char → Option (List Char)) :=
  [searchTotal, searchAmount, searchDollar, searchBare]

/-- The pattern loop of `extract_expense_info`: first pattern whose match
parses to a strictly positive `Decimal` wins; a failed parse or a
non-positive value falls through to the next pattern.  The default is the
source's initial `amount = Decimal('0.00')`. -/
def amountLoop : List (List Char → Option (List Char)) → List Char → PyDecimal
  | [], _ => ⟨0, 2⟩
  | p :: ps, text =>
    match p text with
    | none => amountLoop ps text
    | some cap =>
      match parseDecimal cap with
      | none => amountLoop ps text
      | some v => if v.isPos then v else amountLoop ps text

def extract_amount (text : List Char) : PyDecimal :=
  amountLoop amount_patterns text

/-- Every amount pattern misses on `text`: no match, or (vacuously here) a
match whose capture does not parse, or a parsed value that is not strictly
positive. -/
def amountMiss (text : List Char) : Bool :=
  amount_patterns.all fun p =>
    match p text with
    | none => true
    | some cap =>
      match parseDecimal cap with
      | none => true
      | some v => !v.isPos

/-! ## Categorization (`categorize_expense`, lines 134–150) -/

def food_keywords : List String :=
  ["restaurant", "cafe", "food", "lunch", "dinner", "pizza", "burger",
   "starbucks", "mcdonald", "subway"]

def transport_keywords : List String :=
  ["taxi", "uber", "bus", "train", "fuel", "gas", "parking", "metro",
   "lyft", "transport"]

def office_keywords : List String :=
  ["office", "supplies", "stationery", "paper", "computer", "software",
   "staples", "depot"]

def travel_keywords : List String :=
  ["hotel", "flight", "airline", "accommodation", "booking", "airbnb",
   "expedia", "marriott"]

def healthcare_keywords : List String :=
  ["pharmacy", "medical", "doctor", "hospital", "clinic", "cvs",
   "walgreens", "health"]

/-- The `categories` dict, in its (insertion-ordered) declared order. -/
def categories : List (String × List String) :=
  [("food", food_keywords),
   ("transport", transport_keywords),
   ("office", office_keywords),
   ("travel", travel_keywords),
   ("healthcare", healthcare_keywords)]

/-- Python's `needle in hay` substring test. -/
def containsSub (needle : List Char) : List Char → Bool
  | [] => needle.isEmpty
  | c :: rest => (((c :: rest).take needle.length) == needle) || containsSub needle rest

/-- `any(keyword in text_lower for keyword in keywords)`. -/
def anyKeyword (kws : List String) (textLower : List Char) : Bool :=
  kws.any fun kw => containsSub kw.toList textLower

def categorize_expense (text : List Char) : String :=
  let tl := lowerL text
  match categories.find? (fun p => anyKeyword p.2 tl) with
  | some p => p.1
  | none => "other"

/-- The spec's description of categorization (section 4.2), written as it is
worded there: lower-case once, try the categories in the fixed declared
order, first whose keyword set matches wins, else `other`. -/
def specCategorize (text : List Char) : String :=
  let tl := lowerL text
  if anyKeyword food_keywords tl then "food"
  else if anyKeyword transport_keywords tl then "transport"
  else if anyKeyword office_keywords tl then "office"
  else if anyKeyword travel_keywords tl then "travel"
  else if anyKeyword healthcare_keywords tl then "healthcare"
  else "other"

/-! ## Description extraction (`extract_description`, lines 152–162) -/

/-- `text.split(sep)` for a single-character separator. -/
def splitOnChar (sep : Char) : List Char → List (List Char)
  | [] => [[]]
  | c :: rest =>
    match splitOnChar sep rest with
    | [] => [[]]
    | h :: t => if c = sep then [] :: h :: t else (c :: h) :: t

/-- `str.strip()` (ASCII whitespace). -/
def stripL (s : List Char) : List Char :=
  ((s.dropWhile isPySpace).reverse.dropWhile isPySpace).reverse

/-- The date-like-lead test `re.match` of `extract_description`: one or more
digits, then one of dot, dash, slash, then a digit, at line start. -/
def dateLikeLead (s : List Char) : Bool :=
  let ds := s.takeWhile Char.isDigit
  if ds.isEmpty then false
  else
    match s.drop ds.length with
    | c :: d :: _ => (c = '.' || c = '-' || c = '/') && d.isDigit
    | _ => false

/-- Characters after the last `/` (i.e. `s.split('/')[-1]`). -/
def lastSegment (s : List Char) : List Char :=
  s.foldl (fun acc c => if c = '/' then [] else acc ++ [c]) []

/-- The filename fallback: last path segment, underscores to spaces. -/
def descFallback (s3_key : List Char) : List Char :=
  (lastSegment s3_key).map fun c => if c = '_' then ' ' else c

def extract_description (text s3_key : List Char) : List Char :=
  let lines := ((splitOnChar '\n' text).map stripL).filter fun l => !l.isEmpty
  match lines.find? (fun l => decide (l.length > 5) && !dateLikeLead l) with
  | some l => l.take 50
  | none => descFallback s3_key

/-! ## Dates: the `datetime` fragment used by the source

`SimpleDate` models a `datetime.date`; `validDate` is the constructor's
calendar check (`datetime` years range over 1–9999). -/

structure SimpleDate where
  year : ℕ
  month : ℕ
  day : ℕ
deriving DecidableEq

def isLeap (y : ℕ) : Bool :=
  y % 4 = 0 && (y % 100 ≠ 0 || y % 400 = 0)

def daysInMonth (y m : ℕ) : ℕ :=
  if m = 2 then (if isLeap y then 29 else 28)
  else if m = 4 || m = 6 || m = 9 || m = 11 then 30
  else 31

def validDate (d : SimpleDate) : Bool :=
  1 ≤ d.year && d.year ≤ 9999 && 1 ≤ d.month && d.month ≤ 12 &&
    1 ≤ d.day && d.day ≤ daysInMonth d.year d.month

/-- `datetime(y, m, d)`: the date when valid, `ValueError` otherwise. -/
def mkDate (y m d : ℕ) : Option SimpleDate :=
  if validDate ⟨y, m, d⟩ then some ⟨y, m, d⟩ else none

/-- CPython `strptime` component `%m`: one or two digits, value 1–12. -/
def mVal (s : List Char) : Option ℕ :=
  if (s.length = 1 || s.length = 2) && s.all Char.isDigit then
    let v := digitsVal s
    if 1 ≤ v && v ≤ 12 then some v else none
  else none

/-- CPython `strptime` component `%d`: one or two digits, value 1–31. -/
def dVal (s : List Char) : Option ℕ :=
  if (s.length = 1 || s.length = 2) && s.all Char.isDigit then
    let v := digitsVal s
    if 1 ≤ v && v ≤ 31 then some v else none
  else none

/-- CPython `strptime` component `%Y`: exactly four digits. -/
def y4Val (s : List Char) : Option ℕ :=
  if s.length = 4 && s.all Char.isDigit then some (digitsVal s) else none

/-- CPython `strptime` component `%y`: exactly two digits; values below 69
map into the 2000s, the rest into the 1900s. -/
def y2Val (s : List Char) : Option ℕ :=
  if s.length = 2 && s.all Char.isDigit then
    let v := digitsVal s
    some (if v < 69 then 2000 + v else 1900 + v)
  else none

/-- `datetime.strptime(s, '%Y-%m-%d')`: the format's literal dashes force a
three-way split with digit-only components. -/
def strptimeYMD (s : List Char) : Option SimpleDate :=
  match splitOnChar '-' s with
  | [ys, ms, ds] =>
    match y4Val ys, mVal ms, dVal ds with
    | some y, some m, some d => mkDate y m d
    | _, _, _ => none
  | _ => none

/-! ## Date extraction (`extract_date`, lines 164–189)

The four patterns, in source order (writing `SEP` for the source's slash-or-
dash character class):
1. `(\d{1,2} SEP \d{1,2} SEP \d{4})`
2. `(\d{4} SEP \d{1,2} SEP \d{1,2})`
3. `(\d{1,2} SEP \d{1,2} SEP \d{2})`
4. `Date[:\s]*(\d{1,2} SEP \d{1,2} SEP \d{2,4})`
A capture is three digit groups joined by two (independent) separators. -/

structure DateCap where
  g1 : List Char
  sep1 : Char
  g2 : List Char
  sep2 : Char
  g3 : List Char
deriving DecidableEq

/-- Exactly `n` leading digits, with the remaining suffix. -/
def digitsN : ℕ → List Char → Option (List Char × List Char)
  | 0, s => some ([], s)
  | _ + 1, [] => none
  | n + 1, c :: rest =>
    if c.isDigit then
      match digitsN n rest with
      | some (ds, r) => some (c :: ds, r)
      | none => none
    else none

/-- A slash-or-dash separator, then the continuation. -/
def afterSep (k : List Char → Option α) (r : List Char) : Option (Char × α) :=
  match r with
  | c :: rest =>
    if c = '/' || c = '-' then (k rest).map fun a => (c, a) else none
  | [] => none

/-- `\d{1,2}` then a separator then continuation `k`, with the greedy and
backtracking semantics: the two-digit reading is tried first, and on failure
of anything after it the one-digit reading is retried. -/
def dmPart (k : List Char → Option α) (s : List Char) : Option (List Char × Char × α) :=
  match s with
  | a :: b :: rest =>
    if a.isDigit then
      if b.isDigit then
        match afterSep k rest with
        | some (c, x) => some ([a, b], c, x)
        | none =>
          match afterSep k (b :: rest) with
          | some (c, x) => some ([a], c, x)
          | none => none
      else
        match afterSep k (b :: rest) with
        | some (c, x) => some ([a], c, x)
        | none => none
    else none
  | _ => none

/-- Trailing `\d{1,2}` (nothing follows in the pattern, so greedily two
digits when available, else one). -/
def d12End (s : List Char) : Option (List Char) :=
  match s with
  | a :: b :: _ =>
    if a.isDigit then (if b.isDigit then some [a, b] else some [a]) else none
  | [a] => if a.isDigit then some [a] else none
  | [] => none

/-- Trailing `\d{2,4}`, greedy. -/
def d24End (s : List Char) : Option (List Char) :=
  match digitsN 4 s with
  | some (ds, _) => some ds
  | none =>
    match digitsN 3 s with
    | some (ds, _) => some ds
    | none => (digitsN 2 s).map (·.1)

/-- Pattern 1 anchored at the current position. -/
def patDDY4 (s : List Char) : Option DateCap :=
  (dmPart (fun r => dmPart (fun r2 => (digitsN 4 r2).map (·.1)) r) s).map
    fun p => ⟨p.1, p.2.1, p.2.2.1, p.2.2.2.1, p.2.2.2.2⟩

/-- Pattern 2 anchored at the current position. -/
def patY4DD (s : List Char) : Option DateCap :=
  match digitsN 4 s with
  | some (y, r) =>
    (afterSep (dmPart d12End) r).map fun p => ⟨y, p.1, p.2.1, p.2.2.1, p.2.2.2⟩
  | none => none

/-- Pattern 3 anchored at the current position. -/
def patDDY2 (s : List Char) : Option DateCap :=
  (dmPart (fun r => dmPart (fun r2 => (digitsN 2 r2).map (·.1)) r) s).map
    fun p => ⟨p.1, p.2.1, p.2.2.1, p.2.2.2.1, p.2.2.2.2⟩

/-- Pattern 4 anchored at the current position. -/
def patLabeled (s : List Char) : Option DateCap :=
  if startsWithCI (String.toList "date") s then
    let r := (s.drop 4).dropWhile fun c => c = ':' || isPySpace c
    (dmPart (fun r1 => dmPart d24End r1) r).map
      fun p => ⟨p.1, p.2.1, p.2.2.1, p.2.2.2.1, p.2.2.2.2⟩
  else none

def date_patterns : List (List Char → Option DateCap) :=
  [scanFirst patDDY4, scanFirst patY4DD, scanFirst patDDY2, scanFirst patLabeled]

/-- The `date_formats` list of the source, in trial order. -/
inductive PyDateFmt
  | mdY4slash | dmY4slash | y4mdDash | mdY4dash | dmY4dash | mdy2slash | dmy2slash
deriving DecidableEq

def date_formats : List PyDateFmt :=
  [.mdY4slash, .dmY4slash, .y4mdDash, .mdY4dash, .dmY4dash, .mdy2slash, .dmy2slash]

/-- `datetime.strptime(cap, fmt)` on a captured `g1 sep g2 sep g3` string:
separators must equal the format's literal ones, components must satisfy the
`strptime` component grammars, and the date must be calendar-valid. -/
def tryFmt : PyDateFmt → DateCap → Option SimpleDate
  | .mdY4slash, c =>
    if c.sep1 = '/' && c.sep2 = '/' then
      match mVal c.g1, dVal c.g2, y4Val c.g3 with
      | some m, some d, some y => mkDate y m d
      | _, _, _ => none
    else none
  | .dmY4slash, c =>
    if c.sep1 = '/' && c.sep2 = '/' then
      match dVal c.g1, mVal c.g2, y4Val c.g3 with
      | some d, some m, some y => mkDate y m d
      | _, _, _ => none
    else none
  | .y4mdDash, c =>
    if c.sep1 = '-' && c.sep2 = '-' then
      match y4Val c.g1, mVal c.g2, dVal c.g3 with
      | some y, some m, some d => mkDate y m d
      | _, _, _ => none
    else none
  | .mdY4dash, c =>
    if c.sep1 = '-' && c.sep2 = '-' then
      match mVal c.g1, dVal c.g2, y4Val c.g3 with
      | some m, some d, some y => mkDate y m d
      | _, _, _ => none
    else none
  | .dmY4dash, c =>
    if c.sep1 = '-' && c.sep2 = '-' then
      match dVal c.g1, mVal c.g2, y4Val c.g3 with
      | some d, some m, some y => mkDate y m d
      | _, _, _ => none
    else none
  | .mdy2slash, c =>
    if c.sep1 = '/' && c.sep2 = '/' then
      match mVal c.g1, dVal c.g2, y2Val c.g3 with
      | some m, some d, some y => mkDate y m d
      | _, _, _ => none
    else none
  | .dmy2slash, c =>
    if c.sep1 = '/' && c.sep2 = '/' then
      match dVal c.g1, mVal c.g2, y2Val c.g3 with
      | some d, some m, some y => mkDate y m d
      | _, _, _ => none
    else none

/-- The source's 2-digit-year fix-up inside the per-format `try`: a parsed
year below 1950 is replaced by year + 100 (`date.replace` re-validates, and
a `ValueError` there is caught by the same `except`). -/
def fixYear (dt : SimpleDate) : Option SimpleDate :=
  if dt.year < 1950 then mkDate (dt.year + 100) dt.month dt.day else some dt

def tryFmtFix (f : PyDateFmt) (c : DateCap) : Option SimpleDate :=
  match tryFmt f c with
  | some dt => fixYear dt
  | none => none

/-- The inner `for fmt in date_formats` loop. -/
def formatLoop (c : DateCap) : List PyDateFmt → Option SimpleDate
  | [] => none
  | f :: fs =>
    match tryFmtFix f c with
    | some dt => some dt
    | none => formatLoop c fs

/-- The outer `for pattern in date_patterns` loop: a pattern whose match
fails every format falls through to the next pattern. -/
def dateLoop (text : List Char) : List (List Char → Option DateCap) → Option SimpleDate
  | [] => none
  | p :: ps =>
    match p text with
    | none => dateLoop text ps
    | some cap =>
      match formatLoop cap date_formats with
      | some dt => some dt
      | none => dateLoop text ps

/-- `strftime('%Y-%m-%d')`, modelled with a zero-padded 4-digit year. -/
def digitChar (n : ℕ) : Char := Char.ofNat (48 + n)

def pad2 (n : ℕ) : List Char :=
  [digitChar (n / 10 % 10), digitChar (n % 10)]

def pad4 (n : ℕ) : List Char :=
  [digitChar (n / 1000 % 10), digitChar (n / 100 % 10),
   digitChar (n / 10 % 10), digitChar (n % 10)]

def formatDate (d : SimpleDate) : List Char :=
  pad4 d.year ++ '-' :: (pad2 d.month ++ '-' :: pad2 d.day)

/-- `extract_date`: first pattern/format success, else today's date
(`datetime.now()` is the ambient parameter `today`). -/
def extract_date (today : SimpleDate) (text : List Char) : List Char :=
  match dateLoop text date_patterns with
  | some dt => formatDate dt
  | none => formatDate today

/-- The strict `YYYY-MM-DD` shape: exactly ten characters, four digits,
dash, two digits, dash, two digits, denoting a valid calendar date. -/
def isStrictYMD (s : List Char) : Bool :=
  match s with
  | [y1, y2, y3, y4, h1, m1, m2, h2, d1, d2] =>
    y1.isDigit && y2.isDigit && y3.isDigit && y4.isDigit &&
    m1.isDigit && m2.isDigit && d1.isDigit && d2.isDigit &&
    h1 = '-' && h2 = '-' &&
    validDate ⟨digitVal y1 * 1000 + digitVal y2 * 100 + digitVal y3 * 10 + digitVal y4,
               digitVal m1 * 10 + digitVal m2,
               digitVal d1 * 10 + digitVal d2⟩
  | _ => false

/-! ## Validation (`validate_expense_data`, lines 191–216)

The validator receives a Python dict; its fields are dynamically typed.
`PyVal` covers the value shapes relevant to validation, `Except Unit`
models a raised exception (`TypeError` on a bad comparison or a non-string
`strptime` argument).  The outer `try` of the source turns any such
exception into `False`; the inner `try` around `strptime` catches only
`ValueError` (a malformed date string), likewise yielding `False`. -/

inductive PyVal
  | str (s : List Char)
  | dec (d : PyDecimal)
  | int (n : ℤ)
  | pyNone
deriving DecidableEq

/-- Python truthiness of the shapes above. -/
def pyTruthy : PyVal → Bool
  | .str s => !s.isEmpty
  | .dec d => !(d.mant == 0)
  | .int n => !(n == 0)
  | .pyNone => false

/-- `v <= 0` with `0 : int`; non-numeric operands raise `TypeError`. -/
def pyLeZero : PyVal → Except Unit Bool
  | .dec d => .ok d.leZero
  | .int n => .ok (n ≤ 0)
  | _ => .error ()

/-- The validator's view of the dict: the five required keys, each possibly
absent.  (The assembler's extra keys play no role in validation.) -/
structure DynRecord where
  expense_id : Option PyVal
  amount : Option PyVal
  category : Option PyVal
  description : Option PyVal
  date : Option PyVal

/-- `field in expense_data and expense_data[field]` for one required key. -/
def fieldOk : Option PyVal → Bool
  | none => false
  | some v => pyTruthy v

/-- The body of the outer `try` of `validate_expense_data`; `.error` is an
uncaught-inside exception reaching the outer handler. -/
def validateBody (r : DynRecord) : Except Unit Bool :=
  if !fieldOk r.expense_id then .ok false
  else if !fieldOk r.amount then .ok false
  else if !fieldOk r.category then .ok false
  else if !fieldOk r.description then .ok false
  else if !fieldOk r.date then .ok false
  else
    match r.amount with
    | some v =>
      match pyLeZero v with
      | .error e => .error e
      | .ok le =>
        if le then .ok false
        else
          match r.date with
          | some (.str s) => .ok (strptimeYMD s).isSome
          | some _ => .error ()
          | none => .error ()
    | none => .error ()

def validate_expense_data (r : DynRecord) : Bool :=
  match validateBody r with
  | .ok b => b
  | .error _ => false

/-! ## Assembly (`extract_expense_info`, lines 90–132)

`uuid` (`str(uuid.uuid4())`), `processed_at` (`datetime.utcnow()`), and
`today` (`datetime.now()` inside `extract_date`) are ambient inputs of the
source, passed here as parameters. -/

structure ExpenseRecord where
  expense_id : List Char
  amount : PyDecimal
  category : String
  description : List Char
  date : List Char
  processed_at : List Char
  s3_key : List Char
  raw_text : List Char
deriving DecidableEq

def extract_expense_info (text s3_key : List Char) (uuid processed_at : List Char)
    (today : SimpleDate) : ExpenseRecord :=
  { expense_id := uuid
    amount := extract_amount text
    category := categorize_expense text
    description := extract_description text s3_key
    date := extract_date today text
    processed_at := processed_at
    s3_key := s3_key
    raw_text := text.take 500 }

/-- The dict built by the assembler, as the validator sees it. -/
def ExpenseRecord.toDyn (r : ExpenseRecord) : DynRecord :=
  { expense_id := some (.str r.expense_id)
    amount := some (.dec r.amount)
    category := some (.str r.category.toList)
    description := some (.str r.description)
    date := some (.str r.date) }

/-! ## The batch loop of `lambda_handler` (lines 29–73)

The AWS collaborators (S3 read + decode, Textract line extraction and
joining, DynamoDB put) are opaque oracles in `HandlerEnv`; an `.error`
outcome is an exception raised while fetching the document's text.  Each
loop iteration is wrapped in its own `try/except: continue`. -/

structure S3Rec where
  bucket : List Char
  key : List Char

structure HandlerEnv where
  fetchText : S3Rec → Except Unit (List Char)
  ocrText : S3Rec → Except Unit (List Char)
  uuidOf : S3Rec → List Char
  nowIso : List Char
  today : SimpleDate

/-- `str.endswith(suffix)`. -/
def endsWithL (suf s : List Char) : Bool :=
  s.drop (s.length - suf.length) == suf

def supported_extensions : List (List Char) :=
  [String.toList ".txt", String.toList ".text", String.toList ".pdf",
   String.toList ".jpg", String.toList ".jpeg", String.toList ".png"]

/-- `key.lower().endswith(('.txt', '.text', '.pdf', '.jpg', '.jpeg', '.png'))`. -/
def supportedKey (key : List Char) : Bool :=
  supported_extensions.any fun e => endsWithL e (lowerL key)

/-- `key.lower().endswith(('.txt', '.text'))`: the plain-text branch. -/
def isTextKey (key : List Char) : Bool :=
  endsWithL (String.toList ".txt") (lowerL key) ||
    endsWithL (String.toList ".text") (lowerL key)

/-- One iteration of the record loop (the body of its `try`): `some` is a
saved record, `none` a skip, `.error` an exception caught by the
per-iteration handler. -/
def processOne (env : HandlerEnv) (r : S3Rec) : Except Unit (Option ExpenseRecord) :=
  if !supportedKey r.key then .ok none
  else
    match (if isTextKey r.key then env.fetchText r else env.ocrText r) with
    | .error e => .error e
    | .ok text =>
      if (stripL text).isEmpty then .ok none
      else
        let expense := extract_expense_info text r.key (env.uuidOf r) env.nowIso env.today
        if !validate_expense_data expense.toDyn then .ok none
        else .ok (some expense)

/-- The full `for record in event['Records']` loop: the list of records
saved to the table, in order. -/
def lambdaLoop (env : HandlerEnv) : List S3Rec → List ExpenseRecord
  | [] => []
  | r :: rs =>
    match processOne env r with
    | .error _ => lambdaLoop env rs
    | .ok none => lambdaLoop env rs
    | .ok (some item) => item :: lambdaLoop env rs

/-- What one record contributes when processed on its own. -/
def recordOutcome (env : HandlerEnv) (r : S3Rec) : Option ExpenseRecord :=
  match processOne env r with
  | .ok (some item) => some item
  | _ => none

/-- A degenerate oracle environment (every fetch raises), used to witness
batch-level properties at concrete inputs. -/
def trivialEnv : HandlerEnv :=
  { fetchText := fun _ => .error ()
    ocrText := fun _ => .error ()
    uuidOf := fun _ => []
    nowIso := []
    today := ⟨2026, 1, 1⟩ }

/-! Sanity checks against the repository's unit tests. -/

example :
    extract_date ⟨2026, 10, 12⟩ (String.toList "Date: 01/15/2024")
      = String.toList "2024-01-15" := by decide
example :
    extract_date ⟨2026, 10, 12⟩ (String.toList "12/25/2023")
      = String.toList "2023-12-25" := by decide
example :
    extract_date ⟨2026, 10, 12⟩ (String.toList "2024-03-10")
      = String.toList "2024-03-10" := by decide
example :
    extract_date ⟨2026, 10, 12⟩ (String.toList "Date: 01/15/24")
      = String.toList "2024-01-15" := by decide
example :
    extract_date ⟨2026, 10, 12⟩ (String.toList "No date here")
      = String.toList "2026-10-12" := by decide

example : extract_amount (String.toList "Total: $25.50") = ⟨2550, 2⟩ := by decide
example : extract_amount (String.toList "Amount $45.00") = ⟨4500, 2⟩ := by decide
example : extract_amount (String.toList "$89.99") = ⟨8999, 2⟩ := by decide
example : extract_amount (String.toList "15.75") = ⟨1575, 2⟩ := by decide
example : extract_amount (String.toList "Total: 100.00") = ⟨10000, 2⟩ := by decide
example : extract_amount (String.toList "No amount here") = ⟨0, 2⟩ := by decide

example : categorize_expense (String.toList "Starbucks Coffee") = "food" := by decide
example : categorize_expense (String.toList "Uber ride to airport") = "transport" := by decide
example : categorize_expense (String.toList "Office supplies from Staples") = "office" := by decide
example : categorize_expense (String.toList "Hotel booking") = "travel" := by decide
example : categorize_expense (String.toList "CVS Pharmacy") = "healthcare" := by decide
example : categorize_expense (String.toList "Random expense") = "other" := by decide

example :
    extract_description (String.toList "Starbucks\n123 Main St\nTotal: $5.50")
      (String.toList "test_receipt.jpg") = String.toList "Starbucks" := by decide
example :
    extract_description [] (String.toList "test_receipt.jpg")
      = String.toList "test receipt.jpg" := by decide

example :
    validate_expense_data
      { expense_id := some (.str (String.toList "test-123"))
        amount := some (.dec ⟨2550, 2⟩)
        category := some (.str (String.toList "food"))
        description := some (.str (String.toList "Coffee Shop"))
        date := some (.str (String.toList "2024-01-15")) } = true := by decide

example :
    validate_expense_data
      { expense_id := some (.str (String.toList "test-123"))
        amount := none
        category := some (.str (String.toList "food"))
        description := some (.str (String.toList "Coffee Shop"))
        date := some (.str (String.toList "2024-01-15")) } = false := by decide

example :
    validate_expense_data
      { expense_id := some (.str (String.toList "test-123"))
        amount := some (.dec ⟨0, 2⟩)
        category := some (.str (String.toList "food"))
        description := some (.str (String.toList "Coffee Shop"))
        date := some (.str (String.toList "2024-01-15")) } = false := by decide

example :
    validate_expense_data
      { expense_id := some (.str (String.toList "test-123"))
        amount := some (.dec ⟨2550, 2⟩)
        category := some (.str (String.toList "food"))
        description := some (.str (String.toList "Coffee Shop"))
        date := some (.str (String.toList "invalid-date")) } = false := by decide

/-! # Theorems -/

/-! ## Helper lemmas (shared) -/

/-- If every pattern in the list misses (no match, unparsable capture, or a
non-positive value), the amount loop yields the initial `Decimal('0.00')`. -/
theorem amountLoop_all_miss (text : List Char) :
    ∀ ps : List (List Char → Option (List Char)),
      (ps.all fun p =>
        match p text with
        | none => true
        | some cap =>
          match parseDecimal cap with
          | none => true
          | some v => !v.isPos) = true →
      amountLoop ps text = ⟨0, 2⟩ := by
  intro ps
  induction ps with
  | nil => intro _; rfl
  | cons p ps ih =>
    intro h
    rw [List.all_cons, Bool.and_eq_true] at h
    obtain ⟨h1, h2⟩ := h
    unfold amountLoop
    cases hp : p text with
    | none =>
      simp only [hp]
      exact ih h2
    | some cap =>
      simp only [hp] at h1 ⊢
      cases hd : parseDecimal cap with
      | none =>
        simp only [hd]
        exact ih h2
      | some v =>
        simp only [hd] at h1 ⊢
        simp only [Bool.not_eq_true'] at h1
        simp [h1]
        exact ih h2

/-! ## C1: the labeled-Total rule -/

/-- C1 (counterexample): a text that contains the substring `Total: $5.00`
(with a strictly positive value 5.00) for which amount extraction does not
return 5.00: the leftmost case-insensitive match of the Total pattern is the
`total: $0.00` occurrence inside `Subtotal: $0.00`, whose value 0 is not
positive, and no later pattern matches positively either, so the result is
`0.00` rather than `5.00`. -/
theorem amount_total_claim_cex :
    containsSub (String.toList "Total: $5.00")
        (String.toList "Subtotal: $0.00 Total: $5.00") = true ∧
    extract_amount (String.toList "Subtotal: $0.00 Total: $5.00") = ⟨0, 2⟩ ∧
    PyDecimal.eqv ⟨0, 2⟩ ⟨500, 2⟩ = false := by decide

/-- C1 (amended): when the leftmost case-insensitive match of the
labeled-Total rule captures a value that parses to a strictly positive
decimal `v`, amount extraction returns exactly `v`; since the Total rule is
the head of `amount_patterns`, this holds whatever the labeled-Amount,
currency-symbol, and bare-number rules would say on the same text. -/
theorem amount_total_first :
    ∀ (text cap : List Char) (v : PyDecimal),
      searchTotal text = some cap → parseDecimal cap = some v → v.isPos = true →
      extract_amount text = v := by
  intro text cap v h1 h2 h3
  unfold extract_amount amount_patterns amountLoop
  simp [h1, h2, h3]

/-- C1 witness: `Total: $4.85` extracts exactly 4.85. -/
theorem amount_total_first_witness :
    extract_amount (String.toList "Total: $4.85") = ⟨485, 2⟩ :=
  amount_total_first (String.toList "Total: $4.85") (String.toList "4.85")
    ⟨485, 2⟩ (by decide) (by decide) (by decide)

/-! ## C5: description length -/

/-- C5 (counterexample): with no qualifying line in the text, the
description falls back to the source key's last path segment, which is not
truncated: a 51-character key yields a 51-character description. -/
theorem description_length_cex :
    extract_description [] (List.replicate 51 'a') = List.replicate 51 'a' ∧
    50 < (extract_description [] (List.replicate 51 'a')).length := by decide

/-- C5 (amended): the description is at most 50 characters whenever it comes
from a qualifying line (the line is truncated); otherwise it is exactly the
fallback - the key's last path segment with underscores replaced by spaces -
whose length is unbounded. -/
theorem description_length :
    ∀ text key : List Char,
      (extract_description text key).length ≤ 50 ∨
      extract_description text key = descFallback key := by
  intro text key
  simp only [extract_description]
  cases h : (((splitOnChar '\n' text).map stripL).filter fun l => !l.isEmpty).find?
      (fun l => decide (l.length > 5) && !dateLikeLead l) with
  | none => right; simp only [h]
  | some l =>
    left
    simp only [h, List.length_take]
    omega

/-! ## C6: year normalization in date extraction -/

/-- C6 (evaluation at the failing input): the `+100` branch, although
commented as 2-digit-year handling, rewrites the four-digit year 1940 to
2040; the two-digit year in `Date: 01/15/24` is already mapped to 2024 by
the `%y` component rule (value < 69 lands in the 2000s), not by the `+100`
branch, and comes out unchanged by it. -/
theorem extract_date_year_shift :
    extract_date ⟨2026, 10, 12⟩ (String.toList "01/15/1940")
        = String.toList "2040-01-15" ∧
    extract_date ⟨2026, 10, 12⟩ (String.toList "Date: 01/15/24")
        = String.toList "2024-01-15" := by decide

/-! ## C7: the all-miss default -/

/-- C7: if every amount pattern misses on the text - it does not match, its
capture fails to parse, or every parsed value is non-positive - then
extraction returns exactly `Decimal('0.00')`; and a pattern whose capture
fails to parse is skipped, extraction continuing with the remaining
patterns instead of raising. -/
theorem amount_miss_default :
    (∀ text : List Char, amountMiss text = true → extract_amount text = ⟨0, 2⟩) ∧
    (∀ (p : List Char → Option (List Char))
       (ps : List (List Char → Option (List Char))) (text cap : List Char),
       p text = some cap → parseDecimal cap = none →
       amountLoop (p :: ps) text = amountLoop ps text) := by
  constructor
  · intro text h
    exact amountLoop_all_miss text amount_patterns h
  · intro p ps text cap h1 h2
    conv_lhs => rw [amountLoop]
    simp only [h1, h2]

/-- C7 witness: a text with no numeric pattern yields `0.00`, and a
(hypothetical) pattern producing an unparsable capture is skipped. -/
theorem amount_miss_default_witness :
    extract_amount (String.toList "No amount here") = ⟨0, 2⟩ ∧
    amountLoop [fun _ => some ['x']] [] = amountLoop [] [] :=
  ⟨amount_miss_default.1 (String.toList "No amount here") (by decide),
   amount_miss_default.2 (fun _ => some ['x']) [] [] ['x'] rfl (by decide)⟩

/-! ## C4: categorization -/

/-- The source's fold over the category table agrees with the spec's nested
first-match description. -/
theorem categorize_eq_spec (text : List Char) :
    categorize_expense text = specCategorize text := by
  simp only [categorize_expense, specCategorize, categories]
  cases h1 : anyKeyword food_keywords (lowerL text) <;>
    cases h2 : anyKeyword transport_keywords (lowerL text) <;>
      cases h3 : anyKeyword office_keywords (lowerL text) <;>
        cases h4 : anyKeyword travel_keywords (lowerL text) <;>
          cases h5 : anyKeyword healthcare_keywords (lowerL text) <;>
            simp [List.find?, h1, h2, h3, h4, h5]

/-- Every spec-side result is in the closed enumeration. -/
theorem specCategorize_mem (text : List Char) :
    specCategorize text ∈
      ["food", "transport", "office", "travel", "healthcare", "other"] := by
  unfold specCategorize
  dsimp only
  split_ifs <;> simp

/-- C4: categorization returns one of the six categories; it follows the
declared order food, transport, office, travel, healthcare with the first
keyword match winning and `other` as default (the spec-side nested-if
formulation `specCategorize`); and it is deterministic, depending only on
the lower-cased text. -/
theorem categorize_spec :
    (∀ text : List Char,
       categorize_expense text ∈
         ["food", "transport", "office", "travel", "healthcare", "other"]) ∧
    (∀ text : List Char, categorize_expense text = specCategorize text) ∧
    (∀ t1 t2 : List Char, lowerL t1 = lowerL t2 →
       categorize_expense t1 = categorize_expense t2) := by
  refine ⟨?_, categorize_eq_spec, ?_⟩
  · intro text
    rw [categorize_eq_spec]
    exact specCategorize_mem text
  · intro t1 t2 h
    simp only [categorize_expense, h]

/-- C4 witness: membership, agreement with the spec ordering, and
case-insensitivity at concrete inputs. -/
theorem categorize_spec_witness :
    categorize_expense (String.toList "Uber ride") ∈
      ["food", "transport", "office", "travel", "healthcare", "other"] ∧
    categorize_expense (String.toList "Uber ride")
      = specCategorize (String.toList "Uber ride") ∧
    categorize_expense (String.toList "UBER RIDE")
      = categorize_expense (String.toList "uber ride") :=
  ⟨categorize_spec.1 (String.toList "Uber ride"),
   categorize_spec.2.1 (String.toList "Uber ride"),
   categorize_spec.2.2 (String.toList "UBER RIDE") (String.toList "uber ride")
     (by decide)⟩

/-! ## C3: date extraction always yields a valid `YYYY-MM-DD` string -/

/-- The `datetime` constructor only produces calendar-valid dates. -/
theorem mkDate_valid {y m d : ℕ} {dt : SimpleDate} (h : mkDate y m d = some dt) :
    validDate dt = true := by
  unfold mkDate at h
  split at h
  · cases h
    assumption
  · cases h

/-- Every successful `strptime` trial yields a valid date. -/
theorem tryFmt_valid {f : PyDateFmt} {c : DateCap} {dt : SimpleDate}
    (h : tryFmt f c = some dt) : validDate dt = true := by
  cases f <;> simp only [tryFmt] at h <;>
    (split at h
     · split at h <;> first | exact mkDate_valid h | cases h
     · cases h)

/-- The year fix-up preserves validity. -/
theorem fixYear_valid {dt dt2 : SimpleDate} (h : fixYear dt = some dt2)
    (hv : validDate dt = true) : validDate dt2 = true := by
  unfold fixYear at h
  split at h
  · exact mkDate_valid h
  · cases h
    exact hv

theorem tryFmtFix_valid {f : PyDateFmt} {c : DateCap} {dt : SimpleDate}
    (h : tryFmtFix f c = some dt) : validDate dt = true := by
  unfold tryFmtFix at h
  cases ht : tryFmt f c with
  | none => rw [ht] at h; cases h
  | some d0 => rw [ht] at h; exact fixYear_valid h (tryFmt_valid ht)

theorem formatLoop_valid {c : DateCap} {dt : SimpleDate} :
    ∀ fs : List PyDateFmt, formatLoop c fs = some dt → validDate dt = true := by
  intro fs
  induction fs with
  | nil => intro h; cases h
  | cons f fs ih =>
    intro h
    unfold formatLoop at h
    cases ht : tryFmtFix f c with
    | none => rw [ht] at h; exact ih h
    | some d0 =>
      rw [ht] at h
      cases h
      exact tryFmtFix_valid ht

theorem dateLoop_valid {text : List Char} {dt : SimpleDate} :
    ∀ ps : List (List Char → Option DateCap),
      dateLoop text ps = some dt → validDate dt = true := by
  intro ps
  induction ps with
  | nil => intro h; cases h
  | cons p ps ih =>
    intro h
    unfold dateLoop at h
    cases hp : p text with
    | none => simp only [hp] at h; exact ih h
    | some cap =>
      simp only [hp] at h
      cases hf : formatLoop cap date_formats with
      | none => simp only [hf] at h; exact ih h
      | some d0 =>
        simp only [hf] at h
        cases h
        exact formatLoop_valid date_formats hf

/-- Digit characters: recognised by `Char.isDigit`, valued by `digitVal`,
distinct from the dash separator. -/
theorem digitChar_spec {k : ℕ} (h : k < 10) :
    (digitChar k).isDigit = true ∧ digitVal (digitChar k) = k ∧
      (digitChar k = '-') = False := by
  interval_cases k <;> refine ⟨by decide, by decide, by decide⟩

/-- Formatting a valid date produces a strict `YYYY-MM-DD` string. -/
theorem formatDate_strict {dt : SimpleDate} (hv : validDate dt = true) :
    isStrictYMD (formatDate dt) = true := by
  obtain ⟨y, m, d⟩ := dt
  simp only [validDate, Bool.and_eq_true, decide_eq_true_eq] at hv
  obtain ⟨⟨⟨⟨⟨hy1, hy2⟩, hm1⟩, hm2⟩, hd1⟩, hd2⟩ := hv
  unfold formatDate pad4 pad2
  simp only [List.cons_append, List.nil_append]
  unfold isStrictYMD
  have e1 := digitChar_spec (Nat.mod_lt (y / 1000) (by omega))
  have e2 := digitChar_spec (Nat.mod_lt (y / 100) (by omega))
  have e3 := digitChar_spec (Nat.mod_lt (y / 10) (by omega))
  have e4 := digitChar_spec (Nat.mod_lt y (by omega))
  have e5 := digitChar_spec (Nat.mod_lt (m / 10) (by omega))
  have e6 := digitChar_spec (Nat.mod_lt m (by omega))
  have e7 := digitChar_spec (Nat.mod_lt (d / 10) (by omega))
  have e8 := digitChar_spec (Nat.mod_lt d (by omega))
  simp only [e1.1, e2.1, e3.1, e4.1, e5.1, e6.1, e7.1, e8.1,
    e1.2.1, e2.2.1, e3.2.1, e4.2.1, e5.2.1, e6.2.1, e7.2.1, e8.2.1,
    Bool.and_eq_true, Bool.true_and, decide_eq_true_eq]
  have hdm : daysInMonth y m ≤ 31 := by
    unfold daysInMonth
    split_ifs <;> omega
  have hyr : y / 1000 % 10 * 1000 + y / 100 % 10 * 100 + y / 10 % 10 * 10 + y % 10 = y := by
    omega
  have hmr : m / 10 % 10 * 10 + m % 10 = m := by omega
  have hdr : d / 10 % 10 * 10 + d % 10 = d := by omega
  rw [hyr, hmr, hdr]
  simp only [validDate, Bool.and_eq_true, decide_eq_true_eq]
  exact ⟨⟨trivial, trivial⟩, ⟨⟨⟨⟨hy1, hy2⟩, hm1⟩, hm2⟩, hd1⟩, hd2⟩

/-- C3: for every input text (and every valid current date used as the
fallback), date extraction returns a string of the strict `YYYY-MM-DD`
shape denoting a valid calendar date; in the embedding the function is
total, so it never fails, and when no pattern/format combination succeeds
the result is exactly the formatted current date. -/
theorem extract_date_always_valid :
    ∀ (today : SimpleDate) (text : List Char),
      validDate today = true →
      isStrictYMD (extract_date today text) = true ∧
      (dateLoop text date_patterns = none →
        extract_date today text = formatDate today) := by
  intro today text hv
  constructor
  · unfold extract_date
    cases hdl : dateLoop text date_patterns with
    | none => exact formatDate_strict hv
    | some dt => exact formatDate_strict (dateLoop_valid date_patterns hdl)
  · intro h
    unfold extract_date
    rw [h]

/-- C3 witness: a dateless text yields a valid string, namely (a valid)
today. -/
theorem extract_date_always_valid_witness :
    validDate ⟨2026, 10, 12⟩ = true ∧
    isStrictYMD (extract_date ⟨2026, 10, 12⟩ (String.toList "no date at all")) = true ∧
    extract_date ⟨2026, 10, 12⟩ (String.toList "no date at all")
      = formatDate ⟨2026, 10, 12⟩ :=
  ⟨by decide,
   (extract_date_always_valid ⟨2026, 10, 12⟩ (String.toList "no date at all")
     (by decide)).1,
   (extract_date_always_valid ⟨2026, 10, 12⟩ (String.toList "no date at all")
     (by decide)).2 (by decide)⟩

/-! ## C8: assembling then validating a record with valid fields accepts -/

theorem isEmpty_false_of_ne {l : List Char} (h : l ≠ []) : l.isEmpty = false := by
  cases l with
  | nil => exact absurd rfl h
  | cons a t => rfl

/-- Splitting a ten-character formatted date on its dashes. -/
theorem splitOnChar_format {a b c d e f g h : Char}
    (ha : (a = '-') = False) (hb : (b = '-') = False) (hc : (c = '-') = False)
    (hd : (d = '-') = False) (he : (e = '-') = False) (hf : (f = '-') = False)
    (hg : (g = '-') = False) (hh : (h = '-') = False) :
    splitOnChar '-' [a, b, c, d, '-', e, f, '-', g, h]
      = [[a, b, c, d], [e, f], [g, h]] := by
  simp [splitOnChar, ha, hb, hc, hd, he, hf, hg, hh]

theorem digitsVal_four (a b c d : Char) :
    digitsVal [a, b, c, d]
      = 10 * (10 * (10 * (10 * 0 + digitVal a) + digitVal b) + digitVal c)
          + digitVal d := rfl

theorem digitsVal_two (a b : Char) :
    digitsVal [a, b] = 10 * (10 * 0 + digitVal a) + digitVal b := rfl

theorem y4Val_pad4 {y : ℕ} (hy1 : 1 ≤ y) (hy2 : y ≤ 9999) :
    y4Val (pad4 y) = some y := by
  have e1 := digitChar_spec (Nat.mod_lt (y / 1000) (by omega))
  have e2 := digitChar_spec (Nat.mod_lt (y / 100) (by omega))
  have e3 := digitChar_spec (Nat.mod_lt (y / 10) (by omega))
  have e4 := digitChar_spec (Nat.mod_lt y (by omega))
  unfold pad4 y4Val
  rw [if_pos (by simp [e1.1, e2.1, e3.1, e4.1])]
  simp only [Option.some.injEq]
  rw [digitsVal_four, e1.2.1, e2.2.1, e3.2.1, e4.2.1]
  omega

theorem mVal_pad2 {m : ℕ} (h1 : 1 ≤ m) (h2 : m ≤ 12) :
    mVal (pad2 m) = some m := by
  interval_cases m <;> decide

theorem dVal_pad2 {d : ℕ} (h1 : 1 ≤ d) (h2 : d ≤ 31) :
    dVal (pad2 d) = some d := by
  interval_cases d <;> decide

theorem daysInMonth_le {y m : ℕ} : daysInMonth y m ≤ 31 := by
  unfold daysInMonth
  split_ifs <;> omega

/-- A formatted valid date reparses under the validator's `%Y-%m-%d`. -/
theorem strptimeYMD_format {y m d : ℕ} (hy1 : 1 ≤ y) (hy2 : y ≤ 9999)
    (hm1 : 1 ≤ m) (hm2 : m ≤ 12) (hd1 : 1 ≤ d) (hd2 : d ≤ daysInMonth y m) :
    strptimeYMD (formatDate ⟨y, m, d⟩) = some ⟨y, m, d⟩ := by
  have e1 := digitChar_spec (Nat.mod_lt (y / 1000) (by omega))
  have e2 := digitChar_spec (Nat.mod_lt (y / 100) (by omega))
  have e3 := digitChar_spec (Nat.mod_lt (y / 10) (by omega))
  have e4 := digitChar_spec (Nat.mod_lt y (by omega))
  have e5 := digitChar_spec (Nat.mod_lt (m / 10) (by omega))
  have e6 := digitChar_spec (Nat.mod_lt m (by omega))
  have e7 := digitChar_spec (Nat.mod_lt (d / 10) (by omega))
  have e8 := digitChar_spec (Nat.mod_lt d (by omega))
  have hsplit : splitOnChar '-' (formatDate ⟨y, m, d⟩) = [pad4 y, pad2 m, pad2 d] := by
    unfold formatDate pad4 pad2
    simp only [List.cons_append, List.nil_append]
    exact splitOnChar_format e1.2.2 e2.2.2 e3.2.2 e4.2.2 e5.2.2 e6.2.2 e7.2.2 e8.2.2
  unfold strptimeYMD
  rw [hsplit]
  show (match y4Val (pad4 y), mVal (pad2 m), dVal (pad2 d) with
    | some a, some b, some c => mkDate a b c
    | _, _, _ => none) = some ⟨y, m, d⟩
  rw [y4Val_pad4 hy1 hy2, mVal_pad2 hm1 hm2,
    dVal_pad2 hd1 (le_trans hd2 daysInMonth_le)]
  show mkDate y m d = some ⟨y, m, d⟩
  unfold mkDate
  rw [if_pos]
  simp only [validDate, Bool.and_eq_true, decide_eq_true_eq]
  exact ⟨⟨⟨⟨⟨hy1, hy2⟩, hm1⟩, hm2⟩, hd1⟩, hd2⟩

/-- The category string is never empty. -/
theorem categorize_ne_nil (text : List Char) :
    (categorize_expense text).toList ≠ [] := by
  rw [categorize_eq_spec]
  unfold specCategorize
  dsimp only
  split_ifs <;> decide

/-- The extracted date string always reparses to a valid date. -/
theorem extract_date_reparses (today : SimpleDate) (text : List Char)
    (hv : validDate today = true) :
    ∃ dt : SimpleDate, strptimeYMD (extract_date today text) = some dt := by
  have hform : ∃ dt : SimpleDate,
      extract_date today text = formatDate dt ∧ validDate dt = true := by
    unfold extract_date
    cases hdl : dateLoop text date_patterns with
    | none => exact ⟨today, rfl, hv⟩
    | some dt => exact ⟨dt, rfl, dateLoop_valid date_patterns hdl⟩
  obtain ⟨dt, hdt, hdtv⟩ := hform
  obtain ⟨yy, mm, dd⟩ := dt
  simp only [validDate, Bool.and_eq_true, decide_eq_true_eq] at hdtv
  obtain ⟨⟨⟨⟨⟨h1, h2⟩, h3⟩, h4⟩, h5⟩, h6⟩ := hdtv
  exact ⟨⟨yy, mm, dd⟩, by rw [hdt]; exact strptimeYMD_format h1 h2 h3 h4 h5 h6⟩

/-- C8: whenever the extractors produce valid fields - a nonempty record
identifier, a strictly positive amount, and a nonempty description (the
category and date extractors always produce valid fields) - assembling the
record and then validating it accepts. -/
theorem assemble_validate_roundtrip :
    ∀ (text s3_key uuid processed_at : List Char) (today : SimpleDate),
      validDate today = true →
      uuid ≠ [] →
      (extract_amount text).isPos = true →
      extract_description text s3_key ≠ [] →
      validate_expense_data
        (extract_expense_info text s3_key uuid processed_at today).toDyn = true := by
  intro text key uuid piso today hv hu ha hdesc
  have hu' : uuid.isEmpty = false := isEmpty_false_of_ne hu
  have hdesc' : (extract_description text key).isEmpty = false := isEmpty_false_of_ne hdesc
  have hcat' : (categorize_expense text).toList.isEmpty = false :=
    isEmpty_false_of_ne (categorize_ne_nil text)
  obtain ⟨dt, hparse⟩ := extract_date_reparses today text hv
  have hdatene : (extract_date today text).isEmpty = false := by
    apply isEmpty_false_of_ne
    intro hnil
    rw [hnil] at hparse
    cases hparse
  simp only [PyDecimal.isPos, decide_eq_true_eq] at ha
  have hmant : ((extract_amount text).mant == 0) = false := by
    simp only [beq_eq_false_iff_ne, ne_eq]
    omega
  have hle : (extract_amount text).leZero = false := by
    simp only [PyDecimal.leZero, decide_eq_false_iff_not]
    omega
  unfold extract_expense_info ExpenseRecord.toDyn validate_expense_data validateBody
  simp only [fieldOk, pyTruthy, pyLeZero, hu', hdesc', hcat', hdatene, hmant, hle,
    Bool.not_false, Bool.not_true, if_false, hparse, Option.isSome_some]
  rfl

/-- C8 witness: a concrete receipt text whose extracted fields are all
valid assembles into an accepted record. -/
theorem assemble_validate_roundtrip_witness :
    validate_expense_data
      (extract_expense_info (String.toList "Starbucks Coffee\nTotal: $4.85")
        (String.toList "receipts/starbucks_receipt.jpg") (String.toList "u-1")
        (String.toList "2026-10-12T00:00:00") ⟨2026, 10, 12⟩).toDyn = true :=
  assemble_validate_roundtrip (String.toList "Starbucks Coffee\nTotal: $4.85")
    (String.toList "receipts/starbucks_receipt.jpg") (String.toList "u-1")
    (String.toList "2026-10-12T00:00:00") ⟨2026, 10, 12⟩
    (by decide) (by decide) (by decide) (by decide)

/-! ## C2: the validator's accept/reject characterization -/

theorem strptimeYMD_nil : strptimeYMD [] = none := rfl

/-- C2: over candidate records of the shapes the pipeline produces (string
identifier, category, description and date; decimal amount; each field
possibly absent), the validator accepts exactly when every required field
is present and non-empty, the amount is strictly positive, and the date
string parses as a valid `%Y-%m-%d` calendar date; equivalently, it rejects
exactly when some required field is absent or empty, the amount is ≤ 0, or
the date string is malformed. -/
theorem validate_accept_iff :
    ∀ (i c dsc dte : Option (List Char)) (a : Option PyDecimal),
      validate_expense_data
        { expense_id := i.map PyVal.str, amount := a.map PyVal.dec,
          category := c.map PyVal.str, description := dsc.map PyVal.str,
          date := dte.map PyVal.str } = true ↔
      ((∃ s, i = some s ∧ s ≠ []) ∧
       (∃ q, a = some q ∧ q.isPos = true) ∧
       (∃ s, c = some s ∧ s ≠ []) ∧
       (∃ s, dsc = some s ∧ s ≠ []) ∧
       (∃ s, dte = some s ∧ (strptimeYMD s).isSome = true)) := by
  intro i c dsc dte a
  unfold validate_expense_data validateBody fieldOk pyTruthy pyLeZero
  cases i <;> cases a <;> cases c <;> cases dsc <;> cases dte <;>
    simp only [Option.map_none', Option.map_some'] <;>
    split_ifs <;>
    simp_all [PyDecimal.isPos, PyDecimal.leZero, List.isEmpty_iff, strptimeYMD_nil]

/-! ## C9: batch isolation in the handler loop -/

/-- C9: in any batch, the saved records are exactly the concatenation of
each document's individually computed outcome - one document's failure or
skip never changes what the others contribute - and a document whose key
lacks a supported extension contributes nothing. -/
theorem lambda_batch_isolated :
    ∀ (env : HandlerEnv) (batch : List S3Rec),
      lambdaLoop env batch = batch.filterMap (recordOutcome env) ∧
      ∀ r : S3Rec, supportedKey r.key = false → recordOutcome env r = none := by
  intro env batch
  refine ⟨?_, ?_⟩
  · induction batch with
    | nil => rfl
    | cons r rs ih =>
      rw [List.filterMap_cons]
      unfold lambdaLoop
      cases h : processOne env r with
      | error e => simp [recordOutcome, h, ih]
      | ok o =>
        cases o with
        | none => simp [recordOutcome, h, ih]
        | some item => simp [recordOutcome, h, ih]
  · intro r h
    unfold recordOutcome processOne
    simp [h]

/-- C9 witness: a `.zip` key in a batch is skipped, contributing nothing. -/
theorem lambda_batch_isolated_witness :
    lambdaLoop trivialEnv [⟨String.toList "b", String.toList "a.zip"⟩]
      = List.filterMap (recordOutcome trivialEnv)
          [⟨String.toList "b", String.toList "a.zip"⟩] ∧
    recordOutcome trivialEnv ⟨String.toList "b", String.toList "a.zip"⟩ = none :=
  ⟨(lambda_batch_isolated trivialEnv [⟨String.toList "b", String.toList "a.zip"⟩]).1,
   (lambda_batch_isolated trivialEnv [⟨String.toList "b", String.toList "a.zip"⟩]).2
     ⟨String.toList "b", String.toList "a.zip"⟩ (by decide)⟩

/-! ## C10: totality of the validator -/

/-- C10: the validator always returns a boolean; any exception raised
inside the body (modelled by `.error`) results in rejection, and in
particular a record whose amount is a (non-empty) string - a non-numeric
type - or whose date is a Python int is always rejected rather than
propagating a `TypeError`. -/
theorem validate_total :
    (∀ (r : DynRecord) (e : Unit), validateBody r = .error e →
       validate_expense_data r = false) ∧
    (∀ r : DynRecord,
       validate_expense_data r = true ∨ validate_expense_data r = false) ∧
    (∀ (idv catv descv datev : Option PyVal) (s : List Char),
       validate_expense_data ⟨idv, some (.str s), catv, descv, datev⟩ = false) ∧
    (∀ (idv amtv catv descv : Option PyVal) (n : ℤ),
       validate_expense_data ⟨idv, amtv, catv, descv, some (.int n)⟩ = false) := by
  refine ⟨?_, ?_, ?_, ?_⟩
  · intro r e h
    unfold validate_expense_data
    rw [h]
  · intro r
    cases h : validate_expense_data r
    · exact Or.inr rfl
    · exact Or.inl rfl
  · intro idv catv descv datev s
    unfold validate_expense_data validateBody
    split_ifs <;> simp_all [fieldOk, pyTruthy, pyLeZero]
  · intro idv amtv catv descv n
    unfold validate_expense_data validateBody
    split_ifs <;> try rfl
    cases amtv with
    | none => rfl
    | some v =>
      cases v <;> simp [pyLeZero] <;> split_ifs <;> rfl

/-- C10 witness: a string-typed amount and an int-typed date are rejected
(not raised), and the validator is boolean-valued at a concrete record. -/
theorem validate_total_witness :
    validate_expense_data
      { expense_id := some (.str (String.toList "id-1"))
        amount := some (.str (String.toList "abc"))
        category := some (.str (String.toList "food"))
        description := some (.str (String.toList "desc"))
        date := some (.str (String.toList "2024-01-15")) } = false ∧
    (validate_expense_data
      { expense_id := some (.str (String.toList "id-1"))
        amount := some (.dec ⟨100, 2⟩)
        category := some (.str (String.toList "food"))
        description := some (.str (String.toList "desc"))
        date := some (.int 7) } = true ∨
     validate_expense_data
      { expense_id := some (.str (String.toList "id-1"))
        amount := some (.dec ⟨100, 2⟩)
        category := some (.str (String.toList "food"))
        description := some (.str (String.toList "desc"))
        date := some (.int 7) } = false) ∧
    validate_expense_data
      { expense_id := some (.str (String.toList "id-1"))
        amount := some (.str (String.toList "abc"))
        category := some (.str (String.toList "food"))
        description := some (.str (String.toList "desc"))
        date := some (.str (String.toList "2024-01-15")) } = false ∧
    validate_expense_data
      { expense_id := some (.str (String.toList "id-1"))
        amount := some (.dec ⟨100, 2⟩)
        category := some (.str (String.toList "food"))
        description := some (.str (String.toList "desc"))
        date := some (.int 7) } = false :=
  ⟨validate_total.1 _ () rfl,
   validate_total.2.1 _,
   validate_total.2.2.1 (some (.str (String.toList "id-1")))
     (some (.str (String.toList "food"))) (some (.str (String.toList "desc")))
     (some (.str (String.toList "2024-01-15"))) (String.toList "abc"),
   validate_total.2.2.2 (some (.str (String.toList "id-1")))
     (some (.dec ⟨100, 2⟩)) (some (.str (String.toList "food")))
     (some (.str (String.toList "desc"))) 7⟩

end SmartExpense
